import Mathlib

/-!
Shallow embedding of the telemetry capture engine
(`YarpRobotLoggerDevice.cpp`) and of `VariablesHandler.cpp`
of the bipedal-locomotion-framework repository, together with proofs
of the behavioural properties claimed by the specification.

Strings are modelled by `String` (with `List Char` views where the C++
works positionally), machine doubles that are merely passed through or
compared are modelled by `ℚ`, and `std::chrono` nanosecond counts by `ℤ`.
Side effects are modelled by explicit state values and by event traces.
-/

/-! ### Basic string machinery (models of `std::string` operations) -/

/-- Model of testing that the first character list is an initial segment of
the second (used for `rfind(prefix, 0) == 0` and for `std::string::find`). -/
def strStartsWith : List Char → List Char → Bool
  | [], _ => true
  | _ :: _, [] => false
  | a :: as, b :: bs => a == b && strStartsWith as bs

/-- A successful initial-segment test needs at least as many characters in
the data as in the pattern. -/
theorem strStartsWith_length {t data : List Char} (h : strStartsWith t data = true) :
    t.length ≤ data.length := by
  induction t generalizing data with
  | nil => simp
  | cons a as ih =>
    cases data with
    | nil => simp [strStartsWith] at h
    | cons b bs =>
      simp only [strStartsWith, Bool.and_eq_true] at h
      simpa using Nat.succ_le_succ (ih h.2)

/-- Model of `str.find(sub) != std::string::npos`: `sub` occurs somewhere in
`s` (an empty `sub` occurs in every string, as `find` returns `0`). -/
def containsSub : List Char → List Char → Bool
  | sub, [] => strStartsWith sub []
  | sub, c :: cs => strStartsWith sub (c :: cs) || containsSub sub cs

/-- Embedding of `findAndReplaceAll` (part_000, lines 68-80): repeatedly
find `toSearch` in the data and replace it by `replaceStr`, resuming the
search just after the inserted replacement (the replacement text is never
rescanned).  The C++ loop does not terminate on an empty `toSearch`; the
program only ever calls it with the non-empty literal `"-"`, and on an
empty `toSearch` this model keeps the data unchanged. -/
def findAndReplaceAll (toSearch replaceStr : List Char) (data : List Char) : List Char :=
  if h : toSearch ≠ [] ∧ strStartsWith toSearch data = true then
    replaceStr ++ findAndReplaceAll toSearch replaceStr (data.drop toSearch.length)
  else
    match data with
    | [] => []
    | d :: ds => d :: findAndReplaceAll toSearch replaceStr ds
termination_by data.length
decreasing_by
  · have h1 : 0 < toSearch.length := by
      cases toSearch with
      | nil => exact absurd rfl h.1
      | cons a as => simp
    have h2 : toSearch.length ≤ data.length := strStartsWith_length h.2
    simp only [List.length_drop]
    omega
  · simp

/-- String wrapper for `findAndReplaceAll`. -/
def findAndReplaceAllStr (data toSearch replaceStr : String) : String :=
  String.mk (findAndReplaceAll toSearch.data replaceStr.data data.data)

/-! ### Worker timing step (shared by the three periodic workers)

`lookForExogenousSignals` (lines 1104-1115), `lookForNewLogs`
(lines 1154-1164) and `recordVideo` (lines 1204-1214) all begin each cycle
with the same fragment:

```
oldTime = time;
time = BipedalLocomotion::clock().now();
if ((time - oldTime).count() < 1e-12) { wakeUpTime = time; }
wakeUpTime += period;
```

The nanosecond counts are integers; the literal `1e-12` is a positive
double strictly below `1`, modelled by the positive rational `1/10^12`
(any positive value at most `1` yields the same predicate on integers). -/

/-- The clock-reset test `(time - oldTime).count() < 1e-12` of the three
periodic workers. -/
def clockResetDetected (oldTime time : Int) : Bool :=
  decide ((((time - oldTime : Int) : ℚ)) < 1 / 10 ^ 12)

/-- One timing step of a periodic worker: the wake-up accumulator after the
clock-reset test and the `wakeUpTime += period` re-arm. -/
def nextWakeUpTime (oldTime time wakeUpTime period : Int) : Int :=
  (if clockResetDetected oldTime time then time else wakeUpTime) + period

/-- The integer reset test fires exactly on a non-positive time increment. -/
theorem clockResetDetected_iff (oldTime time : Int) :
    clockResetDetected oldTime time = true ↔ time ≤ oldTime := by
  unfold clockResetDetected
  rw [decide_eq_true_iff]
  constructor
  · intro hlt
    by_contra hgt
    push_neg at hgt
    have h1 : (1 : ℚ) ≤ ((time - oldTime : Int) : ℚ) := by
      have : (1 : Int) ≤ time - oldTime := by omega
      exact_mod_cast this
    have h2 : (1 : ℚ) / 10 ^ 12 < 1 := by norm_num
    linarith
  · intro hle
    have h1 : ((time - oldTime : Int) : ℚ) ≤ 0 := by
      have : (time - oldTime : Int) ≤ 0 := by omega
      exact_mod_cast this
    have h2 : (0 : ℚ) < 1 / 10 ^ 12 := by norm_num
    linarith

/-! ### Telemetry buffer capacity (`setupTelemetry`, lines 497-505)

```
constexpr double percentage = 0.1;
config.n_samples = static_cast<int>(std::ceil((1 + percentage)
                                              * (config.save_period / devicePeriod)));
```

The real arithmetic of the doubles is modelled exactly over `ℚ`. -/

/-- Number of samples of the telemetry buffer computed by `setupTelemetry`. -/
def setupTelemetryNSamples (save_period devicePeriod : ℚ) : Int :=
  ⌈(1 + 1 / 10) * (save_period / devicePeriod)⌉

/-! ### `VariablesHandler` (src/src/System/src/VariablesHandler.cpp)

The `std::unordered_map` is modelled by an association list; the only
operations the code performs on it are `find` and `emplace`. -/

/-- `iDynTree::IndexRange`: offset and size of a registered variable. -/
structure IndexRange where
  offset : Nat
  size : Nat
deriving DecidableEq, Repr

/-- State of a `VariablesHandler`: the registered variables and the running
total of their sizes. -/
structure VariablesHandler where
  m_variables : List (String × IndexRange)
  m_numberOfVariables : Nat
deriving DecidableEq, Repr

/-- `m_variables.find(name) != m_variables.end()`. -/
def VariablesHandler.hasVariable (h : VariablesHandler) (name : String) : Bool :=
  (h.m_variables.find? (fun p => p.1 == name)).isSome

/-- Embedding of `VariablesHandler::addVariable` (lines 13-30): a name that
already exists is rejected and nothing changes; otherwise the variable is
registered at offset `m_numberOfVariables` and the total grows by `size`. -/
def VariablesHandler.addVariable (h : VariablesHandler) (name : String) (size : Nat) :
    Bool × VariablesHandler :=
  if h.hasVariable name then
    (false, h)
  else
    (true,
      { m_variables := h.m_variables ++ [(name, ⟨h.m_numberOfVariables, size⟩)],
        m_numberOfVariables := h.m_numberOfVariables + size })

/-- Embedding of `VariablesHandler::getVariable` (lines 32-43); the
`InvalidRange` answer is modelled by `none`. -/
def VariablesHandler.getVariable (h : VariablesHandler) (name : String) : Option IndexRange :=
  (h.m_variables.find? (fun p => p.1 == name)).map Prod.snd

/-- Embedding of `VariablesHandler::getNumberOfVariables` (lines 45-48). -/
def VariablesHandler.getNumberOfVariables (h : VariablesHandler) : Nat :=
  h.m_numberOfVariables

/-! ### Text-log discovery (`lookForNewLogs`, lines 1142-1189)

Each scan enumerates the active YARP ports and, for every port name that
starts with `"/log/"`, is not yet in `m_textLoggingPortNames`, passes the
optional substring filter and still exists, inserts the name into
`m_textLoggingPortNames` and calls `yarp::os::Network::connect` (whose
boolean result the code discards). -/

/-- The `textLoggingPortPrefix` constant of `lookForNewLogs`. -/
def textLoggingPortHead : String := "/log/"

/-- Embedding of `YarpRobotLoggerDevice::hasSubstring` (lines 1129-1140). -/
def hasSubstring (str : String) (substrings : List String) : Bool :=
  substrings.any (fun sub => containsSub sub.data str.data)

/-- External collaborators of the log-discovery worker: the configured
substring allow-list and the transport answers (`Network::exists` and the
result of `Network::connect`, the latter discarded by the code). -/
structure LogDiscoveryEnv where
  textLoggingSubnames : List String
  portExists : String → Bool
  connectResult : String → Bool

/-- Observable action of the log-discovery worker: a `Network::connect`
invocation for a port name, together with the result the transport gave. -/
inductive DiscoveryEvent where
  | connect (portName : String) (result : Bool)
deriving DecidableEq, Repr

/-- Treatment of one enumerated port inside a `lookForNewLogs` scan
(lines 1168-1181): on the four-fold condition the name is inserted into the
port set and one `connect` is issued; otherwise nothing happens. -/
def lookForNewLogsStep (env : LogDiscoveryEnv) (names : List String) (port : String) :
    List String × List DiscoveryEvent :=
  if strStartsWith textLoggingPortHead.data port.data
      && !(names.contains port)
      && (env.textLoggingSubnames.isEmpty || hasSubstring port env.textLoggingSubnames)
      && env.portExists port then
    (port :: names, [DiscoveryEvent.connect port (env.connectResult port)])
  else
    (names, [])

/-- One full `lookForNewLogs` scan over the enumerated port list. -/
def lookForNewLogsScan (env : LogDiscoveryEnv) (names : List String) :
    List String → List String × List DiscoveryEvent
  | [] => (names, [])
  | p :: ps =>
    let r := lookForNewLogsStep env names p
    let rr := lookForNewLogsScan env r.1 ps
    (rr.1, r.2 ++ rr.2)

/-- A whole session of the log-discovery worker: one scan per cycle, the
port set carried from scan to scan. -/
def lookForNewLogsSession (env : LogDiscoveryEnv) (names : List String) :
    List (List String) → List String × List DiscoveryEvent
  | [] => (names, [])
  | scan :: scans =>
    let r := lookForNewLogsScan env names scan
    let rr := lookForNewLogsSession env r.1 scans
    (rr.1, r.2 ++ rr.2)

/-- Number of `connect` invocations for a given port name in a trace. -/
def connectCount (port : String) (evs : List DiscoveryEvent) : Nat :=
  evs.countP (fun e => match e with | DiscoveryEvent.connect p _ => p == port)

/-! ### Exogenous-signal discovery (`lookForExogenousSignals`, lines 1055-1127)

For the vectors-collection signals the `connectToExogeneous` lambda
(lines 1067-1102) skips a signal that is already connected, otherwise sets
`connected` from the result of `connect()`, and on a successful connection
immediately attempts a single `getMetadata` negotiation; a failed
negotiation only logs a warning, leaving the signal connected with its
metadata still empty. -/

/-- Connection state of one `VectorsCollectionSignal` binding: the
`connected` flag and the negotiated metadata (`none` while `getMetadata`
has never succeeded). -/
structure VectorsCollectionSignal where
  connected : Bool
  metadata : Option (List (String × List String))
deriving DecidableEq, Repr

/-- Initial binding state created at configuration time. -/
def initialVectorsCollectionSignal : VectorsCollectionSignal :=
  { connected := false, metadata := none }

/-- What the transport answers on one cycle for one binding: the result of
`connect()` and the result of `getMetadata` (`none` = negotiation failed). -/
structure ExogenousCycle where
  connectResult : Bool
  negotiateResult : Option (List (String × List String))
deriving DecidableEq, Repr

/-- Observable actions of the exogenous-signal worker on one binding. -/
inductive ExogenousEvent where
  | connectAttempt (result : Bool)
  | negotiateAttempt (result : Option (List (String × List String)))
deriving DecidableEq, Repr

/-- One `connectToExogeneous` treatment of a vectors-collection binding
(lines 1068-1101): skip when connected; otherwise attempt the connection
and, only when it succeeds, attempt the one metadata negotiation. -/
def connectToExogeneousStep (s : VectorsCollectionSignal) (c : ExogenousCycle) :
    VectorsCollectionSignal × List ExogenousEvent :=
  if s.connected then
    (s, [])
  else if !c.connectResult then
    ({ s with connected := false }, [ExogenousEvent.connectAttempt false])
  else
    match c.negotiateResult with
    | some m =>
      ({ connected := true, metadata := some m },
        [ExogenousEvent.connectAttempt true, ExogenousEvent.negotiateAttempt (some m)])
    | none =>
      ({ s with connected := true },
        [ExogenousEvent.connectAttempt true, ExogenousEvent.negotiateAttempt none])

/-- The whole session of the exogenous worker on one binding: one
`connectToExogeneous` call per cycle of the worker loop. -/
def connectToExogeneousRun (s : VectorsCollectionSignal) :
    List ExogenousCycle → VectorsCollectionSignal × List ExogenousEvent
  | [] => (s, [])
  | c :: cs =>
    let r := connectToExogeneousStep s c
    let rr := connectToExogeneousRun r.1 cs
    (rr.1, r.2 ++ rr.2)

/-! ### Channel tree names

The string constants come from `YarpRobotLoggerDeviceVariableTreeNames.h`,
a header of this repository that is not part of the provided sources.
Modelled from the spec: channels are hierarchical names whose segments are
joined by a fixed delimiter; the real-time entries live under a dedicated
root.  Only the (pairwise) distinctness of these names matters below. -/

def TREE_DELIM : String := "::"

def ROBOT_RT_ROOT_NAME : String := "robot_realtime"

def TIMESTAMPS_NAME : String := "timestamps"

def JOINT_STATE_POSITIONS_NAME : String := "joints_state::positions"

def JOINT_STATE_VELOCITIES_NAME : String := "joints_state::velocities"

def JOINT_STATE_ACCLERATIONS_NAME : String := "joints_state::accelerations"

def JOINT_STATE_TORQUES_NAME : String := "joints_state::torques"

def MOTOR_STATE_POSITIONS_NAME : String := "motors_state::positions"

def MOTOR_STATE_VELOCITIES_NAME : String := "motors_state::velocities"

def MOTOR_STATE_ACCELERATIONS_NAME : String := "motors_state::accelerations"

def MOTOR_STATE_CURRENTS_NAME : String := "motors_state::currents"

def MOTOR_STATE_PWM_NAME : String := "motors_state::PWM"

def MOTOR_STATE_PIDS_NAME : String := "PIDs"

def FTS_NAME : String := "FTs"

def TEMPERATURE_NAME : String := "temperature"

def GYROS_NAME : String := "gyros"

def ACCELEROMETERS_NAME : String := "accelerometers"

def ORIENTATIONS_NAME : String := "orientations"

def MAGNETOMETERS_NAME : String := "magnetometers"

def CARTESIAN_WRENCHES_NAME : String := "cartesian_wrenches"

/-- The real-time entry of a channel: the RT root, the delimiter, then the
channel name (the `rtSignalName` pattern used throughout `run`). -/
def rtName (name : String) : String :=
  ROBOT_RT_ROOT_NAME ++ TREE_DELIM ++ name

/-! ### The acquisition tick (`YarpRobotLoggerDevice::run`, lines 1319-1593)

The tick is modelled as a trace of the observable calls it performs, in
program order: `clearData` on the RT server, `push_back` on the buffer
manager, `populateData` on the RT server, `addChannel` on the buffer
manager, and the final `sendData`.  Every sensor read that may fail is an
`Option` input; a `none` answer produces no events for that source, as in
the code (the failed `advance()` at the top only logs and is not an
observable of the claims). -/

/-- Observable calls of one acquisition tick. -/
inductive LogEvent where
  | clearData
  | pushBack (name : String) (value : List ℚ) (time : ℚ)
  | populateData (name : String) (value : List ℚ)
  | addChannel (name : String)
  | sendData
deriving DecidableEq, Repr

/-- Events of the repeated `run` pattern for one fixed-name stream: on a
successful read, `push_back` under the buffer name then `populateData`
under the real-time entry built from `rtSuffix` (lines 1343-1417). -/
def streamEvents (result : Option (List ℚ)) (bufName rtSuffix : String) (time : ℚ) :
    List LogEvent :=
  match result with
  | none => []
  | some v => [LogEvent.pushBack bufName v time, LogEvent.populateData (rtName rtSuffix) v]

/-- Events of a `run` loop over a named sensor list (`FTs`, gyros,
accelerometers, orientations, magnetometers, cartesian wrenches): the
channel is `group::sensor` and the RT entry is its `rtName`. -/
def sensorListEvents (group : String) (sensors : List (String × Option (List ℚ)))
    (time : ℚ) : List LogEvent :=
  sensors.flatMap (fun s =>
    match s.2 with
    | none => []
    | some v =>
      [LogEvent.pushBack (group ++ TREE_DELIM ++ s.1) v time,
       LogEvent.populateData (rtName (group ++ TREE_DELIM ++ s.1)) v])

/-- Events of the temperature loop (lines 1433-1448): the scalar is pushed
and published as a one-element vector. -/
def temperatureEvents (sensors : List (String × Option ℚ)) (time : ℚ) : List LogEvent :=
  sensors.flatMap (fun s =>
    match s.2 with
    | none => []
    | some v =>
      [LogEvent.pushBack (TEMPERATURE_NAME ++ TREE_DELIM ++ s.1) [v] time,
       LogEvent.populateData (rtName (TEMPERATURE_NAME ++ TREE_DELIM ++ s.1)) [v]])

/-- Embedding of `unpackIMU` (lines 1036-1053): the 12-element IMU signal
holds euler angles, linear acceleration and angular speed segments; the
result is (accelerometer, gyro, orientation). -/
def unpackIMU (signal : List ℚ) : List ℚ × List ℚ × List ℚ :=
  ((signal.drop 3).take 3, (signal.drop 6).take 3, signal.take 3)

/-- Events of the IMU loop of `run` (lines 1500-1525). -/
def imuEvents (imus : List (String × Option (List ℚ))) (time : ℚ) : List LogEvent :=
  imus.flatMap (fun s =>
    match s.2 with
    | none => []
    | some v =>
      [LogEvent.pushBack (ACCELEROMETERS_NAME ++ TREE_DELIM ++ s.1) (unpackIMU v).1 time,
       LogEvent.populateData (rtName (ACCELEROMETERS_NAME ++ TREE_DELIM ++ s.1)) (unpackIMU v).1,
       LogEvent.pushBack (GYROS_NAME ++ TREE_DELIM ++ s.1) (unpackIMU v).2.1 time,
       LogEvent.populateData (rtName (GYROS_NAME ++ TREE_DELIM ++ s.1)) (unpackIMU v).2.1,
       LogEvent.pushBack (ORIENTATIONS_NAME ++ TREE_DELIM ++ s.1) (unpackIMU v).2.2 time,
       LogEvent.populateData (rtName (ORIENTATIONS_NAME ++ TREE_DELIM ++ s.1)) (unpackIMU v).2.2])

/-- One exogenous vectors-collection client as `run` sees it: its configured
signal name and the result of the non-blocking `readData(false)`. -/
structure VCSignalRead where
  signalName : String
  readResult : Option (List (String × List ℚ))
deriving Repr

/-- Events of the exogenous vectors-collection loop of `run`
(lines 1541-1556). -/
def vcSignalEvents (signals : List VCSignalRead) (time : ℚ) : List LogEvent :=
  signals.flatMap (fun s =>
    match s.readResult with
    | none => []
    | some pairs =>
      pairs.flatMap (fun kv =>
        [LogEvent.pushBack (s.signalName ++ TREE_DELIM ++ kv.1) kv.2 time,
         LogEvent.populateData (rtName (s.signalName ++ TREE_DELIM ++ kv.1)) kv.2]))

/-- One deserialized text-log message as `run` sees it (only the fields the
drain loop uses; the source field `portPrefix` is renamed `portPref`). -/
structure TextMsg where
  isValid : Bool
  portSystem : String
  portPref : String
  processName : String
  processPID : String
deriving DecidableEq, Repr

/-- The channel name derived from a text-log message (lines 1569-1573):
the four fields joined by `"::"` (with a `"p"` before the PID), then every
`"-"` replaced by `"_"` because matlab rejects `-` in struct keys. -/
def textLogSignalName (m : TextMsg) : String :=
  findAndReplaceAllStr
    (m.portSystem ++ "::" ++ m.portPref ++ "::" ++ m.processName ++ "::p" ++ m.processPID)
    "-" "_"

/-- The text-log drain loop of `run` (lines 1558-1590): messages are read
while some are pending; a null read breaks the loop; a valid message whose
derived name is not yet in `m_textLogsStoredInManager` causes one
`addChannel` and the insertion of the name into the stored set. -/
def processTextLogs (stored : List String) :
    List (Option TextMsg) → List String × List LogEvent
  | [] => (stored, [])
  | none :: _ => (stored, [])
  | some m :: rest =>
    if m.isValid then
      if stored.contains (textLogSignalName m) then
        processTextLogs stored rest
      else
        let r := processTextLogs (textLogSignalName m :: stored) rest
        (r.1, LogEvent.addChannel (textLogSignalName m) :: r.2)
    else
      processTextLogs stored rest

/-- Everything one acquisition tick reads from its collaborators: the
configured stream flags, the capture time, the answers of every sensor
getter (`none` = the getter returned `false` for that tick), the sensor
name lists of the bridge, the exogenous clients and the pending text-log
reads. -/
structure RunInput where
  streamJointStates : Bool
  streamMotorStates : Bool
  streamMotorPWM : Bool
  streamPIDs : Bool
  streamFTSensors : Bool
  streamTemperatureSensors : Bool
  streamInertials : Bool
  streamCartesianWrenches : Bool
  time : ℚ
  jointPositions : Option (List ℚ)
  jointVelocities : Option (List ℚ)
  jointAccelerations : Option (List ℚ)
  jointTorques : Option (List ℚ)
  motorPositions : Option (List ℚ)
  motorVelocities : Option (List ℚ)
  motorAccelerations : Option (List ℚ)
  motorCurrents : Option (List ℚ)
  motorPWMs : Option (List ℚ)
  pidPositions : Option (List ℚ)
  ftSensors : List (String × Option (List ℚ))
  temperatureSensors : List (String × Option ℚ)
  gyroscopes : List (String × Option (List ℚ))
  linearAccelerometers : List (String × Option (List ℚ))
  orientationSensors : List (String × Option (List ℚ))
  magnetometers : List (String × Option (List ℚ))
  imus : List (String × Option (List ℚ))
  cartesianWrenches : List (String × Option (List ℚ))
  vcSignals : List VCSignalRead
  textLogReads : List (Option TextMsg)

/-- The joint-states block of `run` (lines 1343-1369). -/
def jointStateEvents (inp : RunInput) : List LogEvent :=
  if inp.streamJointStates then
    streamEvents inp.jointPositions JOINT_STATE_POSITIONS_NAME JOINT_STATE_POSITIONS_NAME inp.time
    ++ streamEvents inp.jointVelocities JOINT_STATE_VELOCITIES_NAME JOINT_STATE_VELOCITIES_NAME inp.time
    ++ streamEvents inp.jointAccelerations JOINT_STATE_ACCLERATIONS_NAME JOINT_STATE_ACCLERATIONS_NAME inp.time
    ++ streamEvents inp.jointTorques JOINT_STATE_TORQUES_NAME JOINT_STATE_TORQUES_NAME inp.time
  else []

/-- The motor-states block of `run` (lines 1371-1397). -/
def motorStateEvents (inp : RunInput) : List LogEvent :=
  if inp.streamMotorStates then
    streamEvents inp.motorPositions MOTOR_STATE_POSITIONS_NAME MOTOR_STATE_POSITIONS_NAME inp.time
    ++ streamEvents inp.motorVelocities MOTOR_STATE_VELOCITIES_NAME MOTOR_STATE_VELOCITIES_NAME inp.time
    ++ streamEvents inp.motorAccelerations MOTOR_STATE_ACCELERATIONS_NAME MOTOR_STATE_ACCELERATIONS_NAME inp.time
    ++ streamEvents inp.motorCurrents MOTOR_STATE_CURRENTS_NAME MOTOR_STATE_CURRENTS_NAME inp.time
  else []

/-- The motor-PWM block of `run` (lines 1399-1407).  Note that the source
pushes the value under `MOTOR_STATE_PWM_NAME` but publishes it under the
real-time entry built from `MOTOR_STATE_CURRENTS_NAME`. -/
def motorPWMEvents (inp : RunInput) : List LogEvent :=
  if inp.streamMotorPWM then
    streamEvents inp.motorPWMs MOTOR_STATE_PWM_NAME MOTOR_STATE_CURRENTS_NAME inp.time
  else []

/-- The PID block of `run` (lines 1409-1417). -/
def pidEvents (inp : RunInput) : List LogEvent :=
  if inp.streamPIDs then
    streamEvents inp.pidPositions MOTOR_STATE_PIDS_NAME MOTOR_STATE_PIDS_NAME inp.time
  else []

/-- The six-axis force-torque block of `run` (lines 1419-1431). -/
def ftBlockEvents (inp : RunInput) : List LogEvent :=
  if inp.streamFTSensors then sensorListEvents FTS_NAME inp.ftSensors inp.time else []

/-- The temperature block of `run` (lines 1433-1448). -/
def temperatureBlockEvents (inp : RunInput) : List LogEvent :=
  if inp.streamTemperatureSensors then
    temperatureEvents inp.temperatureSensors inp.time
  else []

/-- The inertials block of `run` (lines 1450-1497). -/
def inertialBlockEvents (inp : RunInput) : List LogEvent :=
  if inp.streamInertials then
    sensorListEvents GYROS_NAME inp.gyroscopes inp.time
    ++ sensorListEvents ACCELEROMETERS_NAME inp.linearAccelerometers inp.time
    ++ sensorListEvents ORIENTATIONS_NAME inp.orientationSensors inp.time
    ++ sensorListEvents MAGNETOMETERS_NAME inp.magnetometers inp.time
  else []

/-- The cartesian-wrench block of `run` (lines 1527-1539). -/
def wrenchBlockEvents (inp : RunInput) : List LogEvent :=
  if inp.streamCartesianWrenches then
    sensorListEvents CARTESIAN_WRENCHES_NAME inp.cartesianWrenches inp.time
  else []

/-- All buffer/publisher events of one tick between `clearData` and
`sendData`, in program order (lines 1334-1590). -/
def runBodyEvents (stored : List String) (inp : RunInput) : List String × List LogEvent :=
  let tl := processTextLogs stored inp.textLogReads
  (tl.1,
    LogEvent.populateData (rtName TIMESTAMPS_NAME) [inp.time]
    :: (jointStateEvents inp
      ++ motorStateEvents inp
      ++ motorPWMEvents inp
      ++ pidEvents inp
      ++ ftBlockEvents inp
      ++ temperatureBlockEvents inp
      ++ inertialBlockEvents inp
      ++ imuEvents inp.imus inp.time
      ++ wrenchBlockEvents inp
      ++ vcSignalEvents inp.vcSignals inp.time
      ++ tl.2))

/-- Embedding of one acquisition tick `YarpRobotLoggerDevice::run`
(lines 1319-1593): `clearData` first, then the per-source events, then the
single final `sendData`; the updated text-log stored set is returned. -/
def runTick (stored : List String) (inp : RunInput) : List String × List LogEvent :=
  let body := runBodyEvents stored inp
  (body.1, LogEvent.clearData :: body.2 ++ [LogEvent.sendData])

/-! ### The save callback (`saveCallback`, lines 1595-1791)

The rotation callback finalizes (renames) the artifact of every camera
stream and, on a periodic rotation, reopens a fresh writer or frames
folder.  The model records one event per rename and per reopen attempt,
and mirrors the early `return false` of every failure branch. -/

/-- Save mode of one image saver. -/
inductive SaveMode where
  | Video
  | Frame
deriving DecidableEq, Repr

/-- The part of `VideoWriter::ImageSaver` the callback consults. -/
structure ImageSaver where
  saveMode : SaveMode
deriving DecidableEq, Repr

/-- The pair of optional image savers of one `VideoWriter` entry. -/
structure VideoWriterEntry where
  rgb : Option ImageSaver
  depth : Option ImageSaver
deriving DecidableEq, Repr

/-- `robometry::SaveCallbackSaveMethod`. -/
inductive SaveCallbackSaveMethod where
  | periodic
  | last_call
deriving DecidableEq, Repr

/-- Observable actions of the save callback on camera streams. -/
inductive SaveEvent where
  | rename (camera videoType : String)
  | openVideoWriter (camera videoType : String)
  | createFramesFolder (camera videoType : String)
deriving DecidableEq, Repr

/-- Everything `saveCallback` consults: the rotation method, the two
camera lists, each camera's writers, and whether each reopen attempt
(`openVideoWriter` / `createFramesFolder`) succeeds. -/
structure SaveInput where
  method : SaveCallbackSaveMethod
  rgbCamerasList : List String
  rgbdCamerasList : List String
  videoWriters : String → VideoWriterEntry
  openVideoWriterOk : String → String → Bool
  createFramesFolderOk : String → String → Bool

/-- The `saveVideo` lambda (lines 1620-1650): a missing saver is an error;
otherwise the writer is released if needed and the artifact of the stream
is renamed (`std::filesystem::rename`), which is the stream's
finalization. -/
def saveVideo (imageSaver : Option ImageSaver) (camera videoType : String) :
    Bool × List SaveEvent :=
  match imageSaver with
  | none => (false, [])
  | some _ => (true, [SaveEvent.rename camera videoType])

/-- The reopen step after a periodic rotation (lines 1666-1688 and
analogous blocks): a `Video` saver gets a new video writer, a `Frame`
saver a new frames folder; the boolean is the success of the attempt. -/
def reopenStream (inp : SaveInput) (saver : ImageSaver) (camera videoType : String) :
    Bool × List SaveEvent :=
  if saver.saveMode = SaveMode.Video then
    (inp.openVideoWriterOk camera videoType, [SaveEvent.openVideoWriter camera videoType])
  else
    (inp.createFramesFolderOk camera videoType, [SaveEvent.createFramesFolder camera videoType])

/-- Treatment of one camera of `m_rgbCamerasList` (lines 1653-1689):
finalize the rgb stream (failure aborts), skip reopening unless the
rotation is periodic, otherwise reopen (failure aborts). -/
def processRgbCamera (inp : SaveInput) (camera : String) : Bool × List SaveEvent :=
  match (inp.videoWriters camera).rgb with
  | none => (false, [])
  | some saver =>
    let evs := [SaveEvent.rename camera "rgb"]
    if inp.method ≠ SaveCallbackSaveMethod.periodic then
      (true, evs)
    else
      let ro := reopenStream inp saver camera "rgb"
      (ro.1, evs ++ ro.2)

/-- Treatment of one camera of `m_rgbdCamerasList` (lines 1691-1760):
finalize the rgb stream then the depth stream (each failure aborts), skip
reopening unless periodic, otherwise reopen rgb then depth (each failure
aborts).  As in the source, the reopen decisions for the rgb stream
consult the camera's rgb saver and those for the depth stream its depth
saver. -/
def processRgbdCamera (inp : SaveInput) (camera : String) : Bool × List SaveEvent :=
  match (inp.videoWriters camera).rgb with
  | none => (false, [])
  | some rgbSaver =>
    match (inp.videoWriters camera).depth with
    | none => (false, [SaveEvent.rename camera "rgb"])
    | some depthSaver =>
      let evs := [SaveEvent.rename camera "rgb", SaveEvent.rename camera "depth"]
      if inp.method ≠ SaveCallbackSaveMethod.periodic then
        (true, evs)
      else
        let r1 := reopenStream inp rgbSaver camera "rgb"
        if !r1.1 then
          (false, evs ++ r1.2)
        else
          let r2 := reopenStream inp depthSaver camera "depth"
          (r2.1, evs ++ r1.2 ++ r2.2)

/-- The camera loops of `saveCallback`: cameras are processed in list
order and the first failing camera aborts the loop with `false`, exactly
as the early `return false` statements of the source. -/
def processCameraList (f : String → Bool × List SaveEvent) :
    List String → Bool × List SaveEvent
  | [] => (true, [])
  | c :: rest =>
    let r := f c
    if !r.1 then
      (false, r.2)
    else
      let rr := processCameraList f rest
      (rr.1, r.2 ++ rr.2)

/-- Embedding of `YarpRobotLoggerDevice::saveCallback` (lines 1595-1791):
the rgb-camera loop, then the rgbd-camera loop, each aborting the whole
callback on its first failure; the trailing best-effort provenance record
writes no camera event and never fails the rotation. -/
def saveCallback (inp : SaveInput) : Bool × List SaveEvent :=
  let rgbPart := processCameraList (processRgbCamera inp) inp.rgbCamerasList
  if !rgbPart.1 then
    (false, rgbPart.2)
  else
    let rgbdPart := processCameraList (processRgbdCamera inp) inp.rgbdCamerasList
    (rgbdPart.1, rgbPart.2 ++ rgbdPart.2)

/-! ## Claims -/

/-- C9: for every `VariablesHandler` state and every name already
registered in it, `addVariable(name, size)` returns `false` and leaves the
handler unchanged (the variable map and `getNumberOfVariables()` keep
their previous values) for every `size`, including the size with which the
name was originally registered. -/
theorem addVariable_duplicate_rejected (h : VariablesHandler) (name : String) (size : Nat)
    (hmem : h.hasVariable name = true) :
    h.addVariable name size = (false, h) ∧
      (h.addVariable name size).2.m_variables = h.m_variables ∧
      (h.addVariable name size).2.getNumberOfVariables = h.getNumberOfVariables := by
  unfold VariablesHandler.addVariable
  simp [hmem]

/-- Witness for `addVariable_duplicate_rejected`: a handler holding `"x"`
of size 3 rejects a second registration of `"x"` with the same size. -/
theorem addVariable_duplicate_rejected_witness :
    (VariablesHandler.mk [("x", ⟨0, 3⟩)] 3).hasVariable "x" = true ∧
      (VariablesHandler.mk [("x", ⟨0, 3⟩)] 3).addVariable "x" 3
        = (false, VariablesHandler.mk [("x", ⟨0, 3⟩)] 3) :=
  ⟨by decide, (addVariable_duplicate_rejected (VariablesHandler.mk [("x", ⟨0, 3⟩)] 3)
      "x" 3 (by decide)).1⟩

/-- C6: for every configured `save_period` and device period, the telemetry
buffer capacity computed by `setupTelemetry` is at least
`ceil(1.1 * save_period / devicePeriod)`; in particular, for
`save_period = 1.0` s and `devicePeriod = 0.01` s the computed capacity is
`110` samples, hence at least `110`. -/
theorem setupTelemetry_capacity :
    (∀ save_period devicePeriod : ℚ,
        ⌈(11 / 10 : ℚ) * (save_period / devicePeriod)⌉
          ≤ setupTelemetryNSamples save_period devicePeriod) ∧
      setupTelemetryNSamples 1 (1 / 100) = 110 := by
  constructor
  · intro sp dp
    unfold setupTelemetryNSamples
    norm_num
  · unfold setupTelemetryNSamples
    norm_num

/-- C3 counterexample: the claim declares a clock reset exactly when the
new reading is strictly smaller than the previous one, and otherwise
demands `wake += period`.  At `oldTime = time = 5`, `wakeUpTime = 100`,
`period = 10`, the reading is not smaller than the previous one, yet the
code reseeds and produces `15` instead of the claimed `100 + 10`. -/
theorem clockReset_strict_counterexample :
    ¬ ((5 : Int) < 5) ∧ nextWakeUpTime 5 5 100 10 = 15 ∧
      nextWakeUpTime 5 5 100 10 ≠ 100 + 10 := by
  have hreset : clockResetDetected 5 5 = true := (clockResetDetected_iff 5 5).mpr (by omega)
  refine ⟨by omega, ?_, ?_⟩ <;> simp [nextWakeUpTime, hreset]

/-- C3 amended: a clock reset is declared, and the wake-time accumulator
reseeded from the current `now()`, exactly when the newly measured `now()`
is smaller than **or equal to** the previous reading (the integer
nanosecond difference is compared against `1e-12`, so a zero increment
also counts as a reset); otherwise the next wake time is the previous wake
time plus the worker's period, never `now() + period`. -/
theorem clockReset_nonstrict (oldTime time wakeUpTime period : Int) :
    nextWakeUpTime oldTime time wakeUpTime period
      = if time ≤ oldTime then time + period else wakeUpTime + period := by
  unfold nextWakeUpTime
  by_cases h : time ≤ oldTime
  · rw [if_pos ((clockResetDetected_iff oldTime time).mpr h), if_pos h]
  · have hfalse : clockResetDetected oldTime time = false := by
      rw [← Bool.not_eq_true, clockResetDetected_iff]
      exact h
    rw [hfalse]
    simp [h]


/-- One discovery step never removes names from the port set. -/
theorem lookForNewLogsStep_subset (env : LogDiscoveryEnv) (names : List String)
    (p x : String) (hx : x ∈ names) : x ∈ (lookForNewLogsStep env names p).1 := by
  unfold lookForNewLogsStep
  split
  · exact List.mem_cons_of_mem p hx
  · exact hx

/-- Connect events of one discovery step: at most one, none for a name
already in the set, and an emitted connect puts the name in the set. -/
theorem lookForNewLogsStep_count (env : LogDiscoveryEnv) (names : List String)
    (p port : String) :
    connectCount port (lookForNewLogsStep env names p).2 ≤ 1
      ∧ (port ∈ names → connectCount port (lookForNewLogsStep env names p).2 = 0)
      ∧ (1 ≤ connectCount port (lookForNewLogsStep env names p).2
          → port ∈ (lookForNewLogsStep env names p).1) := by
  unfold lookForNewLogsStep
  split
  case isTrue hc =>
    have hnot : p ∉ names := by
      have hcontains : names.contains p = false := by
        rcases Bool.and_eq_true _ _ |>.mp hc with ⟨hl, _⟩
        rcases Bool.and_eq_true _ _ |>.mp hl with ⟨hll, _⟩
        rcases Bool.and_eq_true _ _ |>.mp hll with ⟨_, hnp⟩
        simpa using hnp
      simpa using hcontains
    by_cases hpq : p = port
    · subst hpq
      refine ⟨by simp [connectCount], ?_, ?_⟩
      · intro hmem; exact absurd hmem hnot
      · intro _; exact List.mem_cons_self p names
    · refine ⟨?_, ?_, ?_⟩
      · simp [connectCount, hpq]
      · intro _; simp [connectCount, hpq]
      · intro h1
        simp [connectCount, hpq] at h1
  case isFalse hc =>
    simp [connectCount]

/-- Connect events of one full scan: none for a name already in the set,
at most one in total, an emitted connect puts the name in the set, and the
set only grows. -/
theorem lookForNewLogsScan_count (env : LogDiscoveryEnv) (ports : List String)
    (names : List String) (port : String) :
    (∀ x ∈ names, x ∈ (lookForNewLogsScan env names ports).1)
      ∧ (port ∈ names → connectCount port (lookForNewLogsScan env names ports).2 = 0)
      ∧ connectCount port (lookForNewLogsScan env names ports).2 ≤ 1
      ∧ (1 ≤ connectCount port (lookForNewLogsScan env names ports).2
          → port ∈ (lookForNewLogsScan env names ports).1) := by
  induction ports generalizing names with
  | nil =>
    refine ⟨fun x hx => hx, fun hmem => rfl, ?_, ?_⟩
    · simp [lookForNewLogsScan, connectCount]
    · intro h1
      simp [lookForNewLogsScan, connectCount] at h1
  | cons p ps ih =>
    have hstep := lookForNewLogsStep_count env names p port
    have hsub := fun x hx => lookForNewLogsStep_subset env names p x hx
    have ihr := ih (lookForNewLogsStep env names p).1
    have hsplit :
        lookForNewLogsScan env names (p :: ps)
          = ((lookForNewLogsScan env (lookForNewLogsStep env names p).1 ps).1,
             (lookForNewLogsStep env names p).2
               ++ (lookForNewLogsScan env (lookForNewLogsStep env names p).1 ps).2) := rfl
    rw [hsplit]
    have hcount :
        connectCount port ((lookForNewLogsStep env names p).2
            ++ (lookForNewLogsScan env (lookForNewLogsStep env names p).1 ps).2)
          = connectCount port (lookForNewLogsStep env names p).2
            + connectCount port
                (lookForNewLogsScan env (lookForNewLogsStep env names p).1 ps).2 := by
      simp [connectCount, List.countP_append]
    refine ⟨?_, ?_, ?_, ?_⟩
    · intro x hx
      exact ihr.1 x (hsub x hx)
    · intro hmem
      rw [hcount, hstep.2.1 hmem, ihr.2.1 (hsub port hmem)]
    · rw [hcount]
      rcases Nat.eq_zero_or_pos (connectCount port (lookForNewLogsStep env names p).2) with
        h0 | h1
      · rw [h0]
        simpa using ihr.2.2.1
      · have hmem1 : port ∈ (lookForNewLogsStep env names p).1 := hstep.2.2 h1
        rw [ihr.2.1 hmem1]
        simpa using hstep.1
    · intro hge
      rw [hcount] at hge
      rcases Nat.eq_zero_or_pos (connectCount port (lookForNewLogsStep env names p).2) with
        h0 | h1
      · rw [h0, Nat.zero_add] at hge
        exact ihr.2.2.2 hge
      · exact ihr.1 port (hstep.2.2 h1)

/-- Connect events of a whole session: none for a name already in the set,
and at most one in total. -/
theorem lookForNewLogsSession_count (env : LogDiscoveryEnv) (scans : List (List String))
    (names : List String) (port : String) :
    (port ∈ names → connectCount port (lookForNewLogsSession env names scans).2 = 0)
      ∧ connectCount port (lookForNewLogsSession env names scans).2 ≤ 1 := by
  induction scans generalizing names with
  | nil =>
    refine ⟨fun _ => rfl, ?_⟩
    simp [lookForNewLogsSession, connectCount]
  | cons scan scans ih =>
    have hscan := lookForNewLogsScan_count env scan names port
    have ihr := ih (lookForNewLogsScan env names scan).1
    have hsplit :
        lookForNewLogsSession env names (scan :: scans)
          = ((lookForNewLogsSession env (lookForNewLogsScan env names scan).1 scans).1,
             (lookForNewLogsScan env names scan).2
               ++ (lookForNewLogsSession env (lookForNewLogsScan env names scan).1 scans).2) := rfl
    rw [hsplit]
    have hcount :
        connectCount port ((lookForNewLogsScan env names scan).2
            ++ (lookForNewLogsSession env (lookForNewLogsScan env names scan).1 scans).2)
          = connectCount port (lookForNewLogsScan env names scan).2
            + connectCount port
                (lookForNewLogsSession env (lookForNewLogsScan env names scan).1 scans).2 := by
      simp [connectCount, List.countP_append]
    constructor
    · intro hmem
      rw [hcount, hscan.2.1 hmem, ihr.1 (hscan.1 port hmem)]
    · rw [hcount]
      rcases Nat.eq_zero_or_pos (connectCount port (lookForNewLogsScan env names scan).2) with
        h0 | h1
      · rw [h0]
        simpa using ihr.2
      · have hmem1 : port ∈ (lookForNewLogsScan env names scan).1 := hscan.2.2.2 h1
        have := ihr.1 hmem1
        rw [this]
        simpa using hscan.2.2.1

/-- C4: for every text-log producer name, across any sequence of discovery
scans within one session (the port set starting empty), `connect` is
invoked at most once for that name: once a name enters the Text-Log Port
Set, no later scan attempts to connect to it again. -/
theorem textLog_connect_at_most_once (env : LogDiscoveryEnv)
    (scans : List (List String)) (port : String) :
    connectCount port (lookForNewLogsSession env [] scans).2 ≤ 1 :=
  (lookForNewLogsSession_count env scans [] port).2

/-- Environment in which every port exists and every `connect` fails. -/
def failingConnectEnv : LogDiscoveryEnv :=
  { textLoggingSubnames := [],
    portExists := fun _ => true,
    connectResult := fun _ => false }

/-- C5 counterexample: with one discovered port `"/log/p"` whose one-shot
connection attempt fails, the port is nevertheless in the Text-Log Port
Set after the scan, so membership is not established only upon a
successful connection. -/
theorem textLogSet_failed_connect_member :
    "/log/p" ∈ (lookForNewLogsScan failingConnectEnv [] ["/log/p"]).1
      ∧ (lookForNewLogsScan failingConnectEnv [] ["/log/p"]).2
          = [DiscoveryEvent.connect "/log/p" false] := by
  decide

/-- C5 amended: membership in the Text-Log Port Set is established by the
connection *attempt*, regardless of its outcome — the name is inserted
into the set and the boolean result of `connect` is discarded; after a
scan a name is in the set exactly when it was already there or some
connect (successful or not) was issued for it during the scan. -/
theorem textLogSet_membership_iff (env : LogDiscoveryEnv) (ports : List String)
    (names : List String) (port : String) :
    port ∈ (lookForNewLogsScan env names ports).1
      ↔ port ∈ names
        ∨ ∃ r, DiscoveryEvent.connect port r ∈ (lookForNewLogsScan env names ports).2 := by
  induction ports generalizing names with
  | nil =>
    simp [lookForNewLogsScan]
  | cons p ps ih =>
    have hsplit :
        lookForNewLogsScan env names (p :: ps)
          = ((lookForNewLogsScan env (lookForNewLogsStep env names p).1 ps).1,
             (lookForNewLogsStep env names p).2
               ++ (lookForNewLogsScan env (lookForNewLogsStep env names p).1 ps).2) := rfl
    rw [hsplit]
    unfold lookForNewLogsStep
    split
    case isTrue hc =>
      rw [ih (p :: names)]
      constructor
      · rintro (hmem | ⟨r, hr⟩)
        · rcases List.mem_cons.mp hmem with hp | hold
          · subst hp
            exact Or.inr ⟨env.connectResult port, by simp⟩
          · exact Or.inl hold
        · exact Or.inr ⟨r, by simp [hr]⟩
      · rintro (hmem | ⟨r, hr⟩)
        · exact Or.inl (List.mem_cons_of_mem p hmem)
        · rcases List.mem_append.mp hr with hhd | htl
          · rcases List.mem_singleton.mp hhd with heq
            have : port = p := by
              injection heq with h1 h2
            exact Or.inl (by simp [this])
          · exact Or.inr ⟨r, htl⟩
    case isFalse hc =>
      rw [ih names]
      simp

/-- A binding that is already connected is left untouched by every later
cycle: no events, no state change. -/
theorem connectToExogeneousRun_connected (s : VectorsCollectionSignal)
    (hs : s.connected = true) (cycles : List ExogenousCycle) :
    connectToExogeneousRun s cycles = (s, []) := by
  induction cycles with
  | nil => rfl
  | cons c cs ih =>
    have hstep : connectToExogeneousStep s c = (s, []) := by
      unfold connectToExogeneousStep
      rw [hs]
      simp
    have hrun : connectToExogeneousRun s (c :: cs)
        = ((connectToExogeneousRun (connectToExogeneousStep s c).1 cs).1,
           (connectToExogeneousStep s c).2
             ++ (connectToExogeneousRun (connectToExogeneousStep s c).1 cs).2) := rfl
    rw [hrun, hstep]
    simpa using ih

/-- Full characterization of a session on one binding started from the
pending state: while `connect()` fails the state stays pending and each
cycle emits one failed attempt; at the first successful connection one
negotiation is attempted and the binding keeps that cycle's negotiation
result as its metadata; afterwards nothing happens. -/
theorem connectToExogeneousRun_init (cycles : List ExogenousCycle) :
    connectToExogeneousRun initialVectorsCollectionSignal cycles
      = ((match cycles.dropWhile (fun c => !c.connectResult) with
          | [] => initialVectorsCollectionSignal
          | c :: _ => { connected := true, metadata := c.negotiateResult }),
         (cycles.takeWhile (fun c => !c.connectResult)).map
             (fun _ => ExogenousEvent.connectAttempt false)
           ++ match cycles.dropWhile (fun c => !c.connectResult) with
              | [] => []
              | c :: _ => [ExogenousEvent.connectAttempt true,
                           ExogenousEvent.negotiateAttempt c.negotiateResult]) := by
  induction cycles with
  | nil => rfl
  | cons c cs ih =>
    have hrun : connectToExogeneousRun initialVectorsCollectionSignal (c :: cs)
        = ((connectToExogeneousRun
              (connectToExogeneousStep initialVectorsCollectionSignal c).1 cs).1,
           (connectToExogeneousStep initialVectorsCollectionSignal c).2
             ++ (connectToExogeneousRun
                  (connectToExogeneousStep initialVectorsCollectionSignal c).1 cs).2) := rfl
    by_cases hc : c.connectResult = true
    · have hstep :
          connectToExogeneousStep initialVectorsCollectionSignal c
            = ({ connected := true, metadata := c.negotiateResult },
               [ExogenousEvent.connectAttempt true,
                ExogenousEvent.negotiateAttempt c.negotiateResult]) := by
        unfold connectToExogeneousStep initialVectorsCollectionSignal
        rw [hc]
        cases hneg : c.negotiateResult with
        | none => simp
        | some m => simp
      have hrest := connectToExogeneousRun_connected
        { connected := true, metadata := c.negotiateResult } rfl cs
      rw [hrun, hstep]
      simp [hrest, List.takeWhile_cons, List.dropWhile_cons, hc]
    · have hcf : c.connectResult = false := by
        simpa using hc
      have hstep :
          connectToExogeneousStep initialVectorsCollectionSignal c
            = (initialVectorsCollectionSignal, [ExogenousEvent.connectAttempt false]) := by
        unfold connectToExogeneousStep initialVectorsCollectionSignal
        rw [hcf]
        simp
      rw [hrun, hstep]
      simp [ih, List.takeWhile_cons, List.dropWhile_cons, hcf]

/-- The head of a non-empty `dropWhile` result fails the predicate. -/
theorem dropWhile_head_false {α : Type} (p : α → Bool) (l : List α) (c : α)
    (rest : List α) (h : l.dropWhile p = c :: rest) : p c = false := by
  induction l with
  | nil => simp at h
  | cons a as ih =>
    rw [List.dropWhile_cons] at h
    by_cases hp : p a = true
    · rw [if_pos hp] at h
      exact ih h
    · rw [if_neg hp] at h
      injection h with h1 h2
      subst h1
      simpa using hp

/-- Bool test for a negotiation event. -/
def isNegotiateAttempt : ExogenousEvent → Bool := fun e =>
  match e with
  | ExogenousEvent.negotiateAttempt _ => true
  | _ => false


/-- The map of failed connect attempts contains no negotiation event. -/
theorem countP_negotiate_map_zero (l : List ExogenousCycle) :
    List.countP isNegotiateAttempt
        (l.map (fun _ => ExogenousEvent.connectAttempt false)) = 0 := by
  induction l with
  | nil => rfl
  | cons a as ih => simp [List.map_cons, List.countP_cons, isNegotiateAttempt, ih]

/-- The head of a non-empty `dropWhile` result is a member of the list. -/
theorem dropWhile_head_mem {α : Type} (p : α → Bool) (l : List α) (c : α)
    (rest : List α) (h : l.dropWhile p = c :: rest) : c ∈ l := by
  induction l with
  | nil => simp at h
  | cons a as ih =>
    rw [List.dropWhile_cons] at h
    by_cases hp : p a = true
    · rw [if_pos hp] at h
      exact List.mem_cons_of_mem a (ih h)
    · rw [if_neg hp] at h
      injection h with h1 h2
      exact h1 ▸ List.mem_cons_self a as

/-- C7: across the whole session of the exogenous-signal worker on one
vectors-collection binding: (i) connection is attempted only while the
binding is not yet connected — a connected binding is skipped, untouched,
on every later cycle, so reconnection attempts are idempotent; (ii)
metadata negotiation is attempted exactly once, on the cycle of the first
successful connection (and never if no connection ever succeeds); (iii) a
negotiation failure on that cycle leaves the binding in the connected
state with no schema metadata. -/
theorem exogenous_negotiation_once (cycles : List ExogenousCycle) :
    (∀ s : VectorsCollectionSignal, s.connected = true →
        connectToExogeneousRun s cycles = (s, []))
      ∧ ((connectToExogeneousRun initialVectorsCollectionSignal cycles).2.countP
            isNegotiateAttempt
          = if cycles.any (fun c => c.connectResult) then 1 else 0)
      ∧ (∀ c rest, cycles.dropWhile (fun c => !c.connectResult) = c :: rest →
          c.negotiateResult = none →
          (connectToExogeneousRun initialVectorsCollectionSignal cycles).1
            = { connected := true, metadata := none }) := by
  refine ⟨fun s hs => connectToExogeneousRun_connected s hs cycles, ?_, ?_⟩
  · rw [connectToExogeneousRun_init cycles]
    cases hdrop : cycles.dropWhile (fun c => !c.connectResult) with
    | nil =>
      have hall : ∀ x ∈ cycles, (!x.connectResult) = true :=
        List.dropWhile_eq_nil_iff.mp hdrop
      have hany : cycles.any (fun c => c.connectResult) = false := by
        rw [List.any_eq_false]
        intro x hx
        have hx2 := hall x hx
        simp only [Bool.not_eq_true'] at hx2
        simp [hx2]
      rw [hany]
      simp [countP_negotiate_map_zero]
      intro a hx hc0 ha
      subst ha
      rfl
    | cons c rest =>
      have hc : c.connectResult = true := by
        have := dropWhile_head_false (fun c => !c.connectResult) cycles c rest hdrop
        simpa using this
      have hmem : c ∈ cycles :=
        dropWhile_head_mem (fun c => !c.connectResult) cycles c rest hdrop
      have hany : cycles.any (fun c => c.connectResult) = true := by
        rw [List.any_eq_true]
        exact ⟨c, hmem, by simp [hc]⟩
      rw [hany]
      simp [List.countP_append, countP_negotiate_map_zero, List.countP_cons,
        isNegotiateAttempt]
      intro a hx hc0 ha
      subst ha
      rfl
  · intro c rest hdrop hneg
    rw [connectToExogeneousRun_init cycles, hdrop]
    simp [hneg]

/-- Witness for `exogenous_negotiation_once`: a binding already connected
with no metadata is skipped by a cycle that would otherwise succeed, and a
session whose second cycle connects but fails negotiation ends connected
and schema-less. -/
theorem exogenous_negotiation_once_witness :
    connectToExogeneousRun { connected := true, metadata := none }
        [{ connectResult := true, negotiateResult := some [] }]
      = ({ connected := true, metadata := none }, [])
    ∧ (connectToExogeneousRun initialVectorsCollectionSignal
          [{ connectResult := false, negotiateResult := none },
           { connectResult := true, negotiateResult := none }]).1
        = { connected := true, metadata := none } := by
  constructor
  · exact (exogenous_negotiation_once
      [{ connectResult := true, negotiateResult := some [] }]).1
      { connected := true, metadata := none } rfl
  · exact (exogenous_negotiation_once
      [{ connectResult := false, negotiateResult := none },
       { connectResult := true, negotiateResult := none }]).2.2
      { connectResult := true, negotiateResult := none } [] (by decide) rfl

/-- Replacing every `"-"` by `"_"` leaves no dash in the result. -/
theorem dash_free_aux : ∀ (n : Nat) (l : List Char), l.length ≤ n →
    ('-') ∉ findAndReplaceAll ['-'] ['_'] l := by
  intro n
  induction n with
  | zero =>
    intro l hl
    have hnil : l = [] := List.eq_nil_of_length_eq_zero (Nat.le_zero.mp hl)
    subst hnil
    rw [findAndReplaceAll]
    simp [strStartsWith]
  | succ k ih =>
    intro l hl
    cases l with
    | nil =>
      rw [findAndReplaceAll]
      simp [strStartsWith]
    | cons d ds =>
      rw [findAndReplaceAll]
      split
      case isTrue h =>
        intro hmem
        rcases List.mem_append.mp hmem with h1 | h2
        · simp at h1
        · have hmem2 : ('-') ∈ findAndReplaceAll ['-'] ['_'] ds := by
            simpa using h2
          exact ih ds (by simpa using Nat.le_of_succ_le_succ hl) hmem2
      case isFalse h =>
        have hsw : strStartsWith ['-'] (d :: ds) = false := by
          by_contra hcon
          rw [Bool.not_eq_false] at hcon
          exact h ⟨by simp, hcon⟩
        have hd : d ≠ '-' := by
          simp [strStartsWith] at hsw
          intro he
          exact hsw (he ▸ rfl)
        intro hmem
        rcases List.mem_cons.mp hmem with h1 | h2
        · exact hd h1.symm
        · exact ih ds (by simpa using Nat.le_of_succ_le_succ hl) h2

/-- No dash survives in a derived text-log channel name. -/
theorem textLogSignalName_dash_free (m : TextMsg) :
    ('-') ∉ (textLogSignalName m).data := by
  have hdata : (textLogSignalName m).data
      = findAndReplaceAll ['-'] ['_']
          (m.portSystem ++ "::" ++ m.portPref ++ "::" ++ m.processName
            ++ "::p" ++ m.processPID).data := rfl
  rw [hdata]
  exact dash_free_aux _ _ (Nat.le_refl _)

/-- The names of the channels added by a trace. -/
def addedChannelNames (evs : List LogEvent) : List String :=
  evs.filterMap (fun e =>
    match e with
    | LogEvent.addChannel n => some n
    | _ => none)

/-- A name is among the added channel names exactly when its `addChannel`
event is in the trace. -/
theorem mem_addedChannelNames (n : String) (evs : List LogEvent) :
    n ∈ addedChannelNames evs ↔ LogEvent.addChannel n ∈ evs := by
  induction evs with
  | nil => simp [addedChannelNames]
  | cons e es ih =>
    cases e <;> simp [addedChannelNames, List.filterMap_cons] at ih ⊢ <;> simp [ih]

/-- C10: for every text-log message processed by the acquisition tick, the
derived channel name has every `-` replaced by `_` before use, and a
Buffer Store channel is created for that name at most once per session:
`addChannel` fires only for names absent from the stored text-log set, the
added names are pairwise distinct, and after the drain the stored set is
exactly the union of the previous set and the names just added (so the
stored set always equals the set of text-log channels already added). -/
theorem textLog_channel_discipline (stored : List String) (msgs : List (Option TextMsg)) :
    (∀ n, LogEvent.addChannel n ∈ (processTextLogs stored msgs).2 →
        n ∉ stored ∧ ('-') ∉ n.data
          ∧ ∃ m, some m ∈ msgs ∧ m.isValid = true ∧ n = textLogSignalName m)
      ∧ (addedChannelNames (processTextLogs stored msgs).2).Nodup
      ∧ (∀ n, n ∈ (processTextLogs stored msgs).1
          ↔ (n ∈ stored ∨ LogEvent.addChannel n ∈ (processTextLogs stored msgs).2)) := by
  induction msgs generalizing stored with
  | nil =>
    refine ⟨?_, ?_, ?_⟩
    · intro n hn
      simp [processTextLogs] at hn
    · simp [processTextLogs, addedChannelNames]
    · intro n
      simp [processTextLogs]
  | cons om rest ih =>
    cases om with
    | none =>
      refine ⟨?_, ?_, ?_⟩
      · intro n hn
        simp [processTextLogs] at hn
      · simp [processTextLogs, addedChannelNames]
      · intro n
        simp [processTextLogs]
    | some m =>
      by_cases hv : m.isValid = true
      · by_cases hmem : textLogSignalName m ∈ stored
        · have heq : processTextLogs stored (some m :: rest)
              = processTextLogs stored rest := by
            simp [processTextLogs, hv, hmem]
          rw [heq]
          obtain ⟨ih1, ih2, ih3⟩ := ih stored
          refine ⟨?_, ih2, ?_⟩
          · intro n hn
            obtain ⟨hn1, hn2, mm, hmm1, hmm2, hmm3⟩ := ih1 n hn
            exact ⟨hn1, hn2, mm, List.mem_cons_of_mem _ hmm1, hmm2, hmm3⟩
          · exact ih3
        · have heq : processTextLogs stored (some m :: rest)
              = ((processTextLogs (textLogSignalName m :: stored) rest).1,
                 LogEvent.addChannel (textLogSignalName m)
                   :: (processTextLogs (textLogSignalName m :: stored) rest).2) := by
            simp [processTextLogs, hv, hmem]
          rw [heq]
          obtain ⟨ih1, ih2, ih3⟩ := ih (textLogSignalName m :: stored)
          have hnotmem : textLogSignalName m ∉ stored := hmem
          refine ⟨?_, ?_, ?_⟩
          · intro n hn
            rcases List.mem_cons.mp hn with h1 | h2
            · have hname : n = textLogSignalName m := by
                injection h1
              subst hname
              exact ⟨hnotmem, textLogSignalName_dash_free m,
                m, List.mem_cons_self _ _, hv, rfl⟩
            · obtain ⟨hn1, hn2, mm, hmm1, hmm2, hmm3⟩ := ih1 n h2
              have hn1' : n ∉ stored := fun hcon =>
                hn1 (List.mem_cons_of_mem _ hcon)
              exact ⟨hn1', hn2, mm, List.mem_cons_of_mem _ hmm1, hmm2, hmm3⟩
          · have hhd : addedChannelNames
                (LogEvent.addChannel (textLogSignalName m)
                  :: (processTextLogs (textLogSignalName m :: stored) rest).2)
                = textLogSignalName m
                  :: addedChannelNames
                      (processTextLogs (textLogSignalName m :: stored) rest).2 := by
              simp [addedChannelNames, List.filterMap_cons]
            rw [hhd]
            refine List.nodup_cons.mpr ⟨?_, ih2⟩
            intro hcon
            have hadd := (mem_addedChannelNames _ _).mp hcon
            obtain ⟨hn1, _, _⟩ := ih1 _ hadd
            exact hn1 (List.mem_cons_self _ _)
          · intro n
            rw [List.mem_cons]
            constructor
            · intro hn
              rcases (ih3 n).mp hn with hsets | hev
              · rcases List.mem_cons.mp hsets with h1 | h2
                · exact Or.inr (Or.inl (by rw [h1]))
                · exact Or.inl h2
              · exact Or.inr (Or.inr hev)
            · rintro (hstored | hcons)
              · exact (ih3 n).mpr (Or.inl (List.mem_cons_of_mem _ hstored))
              · rcases hcons with h1 | h2
                · have hname : n = textLogSignalName m := by
                    injection h1
                  exact (ih3 n).mpr (Or.inl (by simp [hname]))
                · exact (ih3 n).mpr (Or.inr h2)
      · have heq : processTextLogs stored (some m :: rest)
            = processTextLogs stored rest := by
          have hv' : m.isValid = false := by simpa using hv
          simp [processTextLogs, hv']
        rw [heq]
        obtain ⟨ih1, ih2, ih3⟩ := ih stored
        refine ⟨?_, ih2, ?_⟩
        · intro n hn
          obtain ⟨hn1, hn2, mm, hmm1, hmm2, hmm3⟩ := ih1 n hn
          exact ⟨hn1, hn2, mm, List.mem_cons_of_mem _ hmm1, hmm2, hmm3⟩
        · exact ih3

/-- Witness for `textLog_channel_discipline`: one valid message on an
empty stored set yields a channel whose name is new and dash-free. -/
theorem textLog_channel_discipline_witness :
    textLogSignalName (TextMsg.mk true "a" "b" "c" "1") ∉ ([] : List String)
      ∧ ('-') ∉ (textLogSignalName (TextMsg.mk true "a" "b" "c" "1")).data := by
  have hmem : LogEvent.addChannel (textLogSignalName (TextMsg.mk true "a" "b" "c" "1"))
      ∈ (processTextLogs [] [some (TextMsg.mk true "a" "b" "c" "1")]).2 := by
    simp [processTextLogs]
  have h := (textLog_channel_discipline []
    [some (TextMsg.mk true "a" "b" "c" "1")]).1 _ hmem
  exact ⟨h.1, h.2.1⟩

/-- `streamEvents` never emits a flush. -/
theorem sendData_not_mem_streamEvents (r : Option (List ℚ)) (b rt : String) (t : ℚ) :
    LogEvent.sendData ∉ streamEvents r b rt t := by
  cases r <;> simp [streamEvents]

/-- `sensorListEvents` never emits a flush. -/
theorem sendData_not_mem_sensorListEvents (g : String)
    (ss : List (String × Option (List ℚ))) (t : ℚ) :
    LogEvent.sendData ∉ sensorListEvents g ss t := by
  unfold sensorListEvents
  intro hmem
  rcases List.mem_flatMap.mp hmem with ⟨s, _, hin⟩
  cases h2 : s.2 <;> rw [h2] at hin <;> simp at hin

/-- `temperatureEvents` never emits a flush. -/
theorem sendData_not_mem_temperatureEvents (ss : List (String × Option ℚ)) (t : ℚ) :
    LogEvent.sendData ∉ temperatureEvents ss t := by
  unfold temperatureEvents
  intro hmem
  rcases List.mem_flatMap.mp hmem with ⟨s, _, hin⟩
  cases h2 : s.2 <;> rw [h2] at hin <;> simp at hin

/-- `imuEvents` never emits a flush. -/
theorem sendData_not_mem_imuEvents (ss : List (String × Option (List ℚ))) (t : ℚ) :
    LogEvent.sendData ∉ imuEvents ss t := by
  unfold imuEvents
  intro hmem
  rcases List.mem_flatMap.mp hmem with ⟨s, _, hin⟩
  cases h2 : s.2 <;> rw [h2] at hin <;> simp at hin

/-- `vcSignalEvents` never emits a flush. -/
theorem sendData_not_mem_vcSignalEvents (ss : List VCSignalRead) (t : ℚ) :
    LogEvent.sendData ∉ vcSignalEvents ss t := by
  unfold vcSignalEvents
  intro hmem
  rcases List.mem_flatMap.mp hmem with ⟨s, _, hin⟩
  cases h2 : s.readResult with
  | none => rw [h2] at hin; simp at hin
  | some pairs =>
    rw [h2] at hin
    rcases List.mem_flatMap.mp hin with ⟨kv, _, hin2⟩
    simp at hin2

/-- The text-log drain never emits a flush. -/
theorem sendData_not_mem_processTextLogs (msgs : List (Option TextMsg))
    (stored : List String) :
    LogEvent.sendData ∉ (processTextLogs stored msgs).2 := by
  induction msgs generalizing stored with
  | nil => simp [processTextLogs]
  | cons om rest ih =>
    cases om with
    | none => simp [processTextLogs]
    | some m =>
      by_cases hv : m.isValid = true
      · by_cases hmem : textLogSignalName m ∈ stored
        · simpa [processTextLogs, hv, hmem] using ih stored
        · have heq : (processTextLogs stored (some m :: rest)).2
              = LogEvent.addChannel (textLogSignalName m)
                :: (processTextLogs (textLogSignalName m :: stored) rest).2 := by
            simp [processTextLogs, hv, hmem]
          rw [heq]
          intro hcon
          rcases List.mem_cons.mp hcon with h1 | h2
        
          · simp at h1
          · exact ih _ h2
      · have hv' : m.isValid = false := by simpa using hv
        simpa [processTextLogs, hv'] using ih stored

/-- The joint-states block never emits a flush. -/
theorem sendData_not_mem_jointStateEvents (inp : RunInput) :
    LogEvent.sendData ∉ jointStateEvents inp := by
  by_cases hf : inp.streamJointStates = true <;>
    simp [jointStateEvents, hf, List.mem_append, sendData_not_mem_streamEvents]

/-- The motor-states block never emits a flush. -/
theorem sendData_not_mem_motorStateEvents (inp : RunInput) :
    LogEvent.sendData ∉ motorStateEvents inp := by
  by_cases hf : inp.streamMotorStates = true <;>
    simp [motorStateEvents, hf, List.mem_append, sendData_not_mem_streamEvents]

/-- The motor-PWM block never emits a flush. -/
theorem sendData_not_mem_motorPWMEvents (inp : RunInput) :
    LogEvent.sendData ∉ motorPWMEvents inp := by
  by_cases hf : inp.streamMotorPWM = true <;>
    simp [motorPWMEvents, hf, sendData_not_mem_streamEvents]

/-- The PID block never emits a flush. -/
theorem sendData_not_mem_pidEvents (inp : RunInput) :
    LogEvent.sendData ∉ pidEvents inp := by
  by_cases hf : inp.streamPIDs = true <;>
    simp [pidEvents, hf, sendData_not_mem_streamEvents]

/-- The force-torque block never emits a flush. -/
theorem sendData_not_mem_ftBlockEvents (inp : RunInput) :
    LogEvent.sendData ∉ ftBlockEvents inp := by
  by_cases hf : inp.streamFTSensors = true <;>
    simp [ftBlockEvents, hf, sendData_not_mem_sensorListEvents]

/-- The temperature block never emits a flush. -/
theorem sendData_not_mem_temperatureBlockEvents (inp : RunInput) :
    LogEvent.sendData ∉ temperatureBlockEvents inp := by
  by_cases hf : inp.streamTemperatureSensors = true <;>
    simp [temperatureBlockEvents, hf, sendData_not_mem_temperatureEvents]

/-- The inertials block never emits a flush. -/
theorem sendData_not_mem_inertialBlockEvents (inp : RunInput) :
    LogEvent.sendData ∉ inertialBlockEvents inp := by
  by_cases hf : inp.streamInertials = true <;>
    simp [inertialBlockEvents, hf, List.mem_append, sendData_not_mem_sensorListEvents]

/-- The cartesian-wrench block never emits a flush. -/
theorem sendData_not_mem_wrenchBlockEvents (inp : RunInput) :
    LogEvent.sendData ∉ wrenchBlockEvents inp := by
  by_cases hf : inp.streamCartesianWrenches = true <;>
    simp [wrenchBlockEvents, hf, sendData_not_mem_sensorListEvents]

/-- No flush occurs among the per-source events of a tick. -/
theorem sendData_not_mem_runBody (stored : List String) (inp : RunInput) :
    LogEvent.sendData ∉ (runBodyEvents stored inp).2 := by
  unfold runBodyEvents
  simp [List.mem_append, List.mem_cons,
    sendData_not_mem_jointStateEvents, sendData_not_mem_motorStateEvents,
    sendData_not_mem_motorPWMEvents, sendData_not_mem_pidEvents,
    sendData_not_mem_ftBlockEvents, sendData_not_mem_temperatureBlockEvents,
    sendData_not_mem_inertialBlockEvents, sendData_not_mem_imuEvents,
    sendData_not_mem_wrenchBlockEvents, sendData_not_mem_vcSignalEvents,
    sendData_not_mem_processTextLogs]

/-- C8: on every invocation of the acquisition tick, the Real-Time
Publisher's flush (`sendData`) is called exactly once, and only after
every channel that produced a value on that tick has been published: the
trace is some flush-free prefix followed by the single final `sendData`
(sources that produced no value simply contribute no events and do not
prevent the flush). -/
theorem run_sendData_once (stored : List String) (inp : RunInput) :
    ∃ pre, (runTick stored inp).2 = pre ++ [LogEvent.sendData]
      ∧ LogEvent.sendData ∉ pre := by
  refine ⟨LogEvent.clearData :: (runBodyEvents stored inp).2, rfl, ?_⟩
  intro hcon
  rcases List.mem_cons.mp hcon with h1 | h2
  · simp at h1
  · exact sendData_not_mem_runBody stored inp h2

/-- A tick on which only the motor-PWM stream is enabled and its read
succeeds with the vector `[1, 2]`. -/
def pwmRunInput : RunInput :=
  { streamJointStates := false
    streamMotorStates := false
    streamMotorPWM := true
    streamPIDs := false
    streamFTSensors := false
    streamTemperatureSensors := false
    streamInertials := false
    streamCartesianWrenches := false
    time := 0
    jointPositions := none
    jointVelocities := none
    jointAccelerations := none
    jointTorques := none
    motorPositions := none
    motorVelocities := none
    motorAccelerations := none
    motorCurrents := none
    motorPWMs := some [1, 2]
    pidPositions := none
    ftSensors := []
    temperatureSensors := []
    gyroscopes := []
    linearAccelerometers := []
    orientationSensors := []
    magnetometers := []
    imus := []
    cartesianWrenches := []
    vcSignals := []
    textLogReads := [] }

/-- C2 (violated by the code): on the failing input where the motor-PWM
stream is enabled and `getMotorPWMs` succeeds with `[1, 2]`, the tick
appends the value to the Buffer Store under the motor-PWM channel name but
publishes it to the Real-Time Publisher under the real-time entry of the
motor-currents channel, and no publication under the motor-PWM real-time
entry happens at all — the claimed same-name correspondence fails for the
PWM stream (`run`, line 1404 uses `MOTOR_STATE_CURRENTS_NAME`). -/
theorem motorPWM_published_under_currents :
    LogEvent.pushBack MOTOR_STATE_PWM_NAME [1, 2] 0 ∈ (runTick [] pwmRunInput).2
      ∧ LogEvent.populateData (rtName MOTOR_STATE_CURRENTS_NAME) [1, 2]
          ∈ (runTick [] pwmRunInput).2
      ∧ ∀ v : List ℚ,
          LogEvent.populateData (rtName MOTOR_STATE_PWM_NAME) v
            ∉ (runTick [] pwmRunInput).2 := by
  have htrace : (runTick [] pwmRunInput).2
      = [LogEvent.clearData,
         LogEvent.populateData (rtName TIMESTAMPS_NAME) [0],
         LogEvent.pushBack MOTOR_STATE_PWM_NAME [1, 2] 0,
         LogEvent.populateData (rtName MOTOR_STATE_CURRENTS_NAME) [1, 2],
         LogEvent.sendData] := by
    rfl
  rw [htrace]
  refine ⟨by simp, by simp, ?_⟩
  intro v hcon
  have hne : rtName MOTOR_STATE_PWM_NAME ≠ rtName TIMESTAMPS_NAME := by decide
  have hne2 : rtName MOTOR_STATE_PWM_NAME ≠ rtName MOTOR_STATE_CURRENTS_NAME := by decide
  rcases List.mem_cons.mp hcon with h1 | hcon
  · simp at h1
  · rcases List.mem_cons.mp hcon with h1 | hcon
    · injection h1 with h1a h1b
      exact hne h1a
    · rcases List.mem_cons.mp hcon with h1 | hcon
      · simp at h1
      · rcases List.mem_cons.mp hcon with h1 | hcon
        · injection h1 with h1a h1b
          exact hne2 h1a
        · rcases List.mem_cons.mp hcon with h1 | hcon
          · simp at h1
          · simp at hcon

/-- The camera a save event belongs to. -/
def eventCamera : SaveEvent → String
  | SaveEvent.rename c _ => c
  | SaveEvent.openVideoWriter c _ => c
  | SaveEvent.createFramesFolder c _ => c

/-- Reopen events stay on their own camera. -/
theorem reopenStream_camera (inp : SaveInput) (s : ImageSaver) (c ty : String) :
    ∀ e ∈ (reopenStream inp s c ty).2, eventCamera e = c := by
  unfold reopenStream
  by_cases h : s.saveMode = SaveMode.Video <;> simp [h, eventCamera]

/-- Events of one rgb camera stay on that camera. -/
theorem processRgbCamera_camera (inp : SaveInput) (c : String) :
    ∀ e ∈ (processRgbCamera inp c).2, eventCamera e = c := by
  unfold processRgbCamera
  cases hrgb : (inp.videoWriters c).rgb with
  | none => simp
  | some saver =>
    by_cases hm : inp.method = SaveCallbackSaveMethod.periodic
    · simp only [hm]
      intro e he
      simp at he
      rcases he with h1 | h2
      · rw [h1]; rfl
      · exact reopenStream_camera inp saver c "rgb" e h2
    · simp only [if_pos, if_neg]
      intro e he
      simp [hm] at he
      rw [he]
      rfl

/-- Events of one rgbd camera stay on that camera. -/
theorem processRgbdCamera_camera (inp : SaveInput) (c : String) :
    ∀ e ∈ (processRgbdCamera inp c).2, eventCamera e = c := by
  unfold processRgbdCamera
  cases hrgb : (inp.videoWriters c).rgb with
  | none => simp
  | some rgbSaver =>
    cases hdep : (inp.videoWriters c).depth with
    | none =>
      intro e he
      simp at he
      rw [he]
      rfl
    | some depthSaver =>
      by_cases hm : inp.method = SaveCallbackSaveMethod.periodic
      · simp only [hm]
        by_cases hr1 : (reopenStream inp rgbSaver c "rgb").1
        · intro e he
          simp [hr1] at he
          rcases he with rfl | rfl | he | he
          · rfl
          · rfl
          · exact reopenStream_camera inp rgbSaver c "rgb" e he
          · exact reopenStream_camera inp depthSaver c "depth" e he
        · intro e he
          simp [hr1] at he
          rcases he with rfl | rfl | he
          · rfl
          · rfl
          · exact reopenStream_camera inp rgbSaver c "rgb" e he
      · intro e he
        simp [hm] at he
        rcases he with rfl | rfl <;> rfl

/-- When a camera loop succeeds, every camera's step succeeded and its
events are in the loop's trace. -/
theorem processCameraList_true (f : String → Bool × List SaveEvent) :
    ∀ L : List String, (processCameraList f L).1 = true →
      ∀ c ∈ L, (f c).1 = true ∧ ∀ e ∈ (f c).2, e ∈ (processCameraList f L).2 := by
  intro L
  induction L with
  | nil => intro _ c hc; simp at hc
  | cons a rest ih =>
    intro hres c hc
    by_cases hfa : (f a).1 = true
    · have heq : processCameraList f (a :: rest)
          = ((processCameraList f rest).1, (f a).2 ++ (processCameraList f rest).2) := by
        simp [processCameraList, hfa]
      rw [heq] at hres ⊢
      rcases List.mem_cons.mp hc with h1 | h2
      · subst h1
        exact ⟨hfa, fun e he => List.mem_append_left _ he⟩
      · obtain ⟨hg1, hg2⟩ := ih hres c h2
        exact ⟨hg1, fun e he => List.mem_append_right _ (hg2 e he)⟩
    · have hfa' : (f a).1 = false := by simpa using hfa
      have heq : processCameraList f (a :: rest) = (false, (f a).2) := by
        simp [processCameraList, hfa']
      rw [heq] at hres
      simp at hres
  
/-- A camera loop aborts at its first failing camera: the result is
`false` and the trace holds only the events of the preceding cameras and
of the failing one. -/
theorem processCameraList_stop (f : String → Bool × List SaveEvent) :
    ∀ (l1 : List String) (c : String) (l2 : List String),
      (∀ d ∈ l1, (f d).1 = true) → (f c).1 = false →
      processCameraList f (l1 ++ c :: l2)
        = (false, l1.flatMap (fun d => (f d).2) ++ (f c).2) := by
  intro l1
  induction l1 with
  | nil =>
    intro c l2 _ hc
    simp [processCameraList, hc]
  | cons a rest ih =>
    intro c l2 hall hc
    have hfa : (f a).1 = true := hall a (List.mem_cons_self a rest)
    have heq : processCameraList f (a :: (rest ++ c :: l2))
        = ((processCameraList f (rest ++ c :: l2)).1,
           (f a).2 ++ (processCameraList f (rest ++ c :: l2)).2) := by
      simp [processCameraList, hfa]
    rw [List.cons_append, heq, ih c l2 (fun d hd => hall d (List.mem_cons_of_mem a hd)) hc]
    simp

/-- A successfully processed rgb camera has its rgb stream finalized. -/
theorem processRgbCamera_rename (inp : SaveInput) (c : String)
    (h : (processRgbCamera inp c).1 = true) :
    SaveEvent.rename c "rgb" ∈ (processRgbCamera inp c).2 := by
  unfold processRgbCamera at h ⊢
  cases hrgb : (inp.videoWriters c).rgb with
  | none => rw [hrgb] at h; simp at h
  | some saver =>
    rw [hrgb] at h
    by_cases hm : inp.method = SaveCallbackSaveMethod.periodic <;> simp [hm]

/-- A successfully processed rgbd camera has both streams finalized. -/
theorem processRgbdCamera_rename (inp : SaveInput) (c : String)
    (h : (processRgbdCamera inp c).1 = true) :
    SaveEvent.rename c "rgb" ∈ (processRgbdCamera inp c).2
      ∧ SaveEvent.rename c "depth" ∈ (processRgbdCamera inp c).2 := by
  unfold processRgbdCamera at h ⊢
  cases hrgb : (inp.videoWriters c).rgb with
  | none => rw [hrgb] at h; simp at h
  | some rgbSaver =>
    rw [hrgb] at h
    cases hdep : (inp.videoWriters c).depth with
    | none => rw [hdep] at h; simp at h
    | some depthSaver =>
      rw [hdep] at h
      by_cases hm : inp.method = SaveCallbackSaveMethod.periodic
      · by_cases hr1 : (reopenStream inp rgbSaver c "rgb").1 = true <;>
          simp [hm, hr1] at h ⊢
      · simp [hm]

/-- C1 amended: the save callback finalizes the camera streams in list
order but aborts at the first stream whose finalization (or, on a periodic
rotation, whose reopening) fails, immediately returning `false`: failures
are not aggregated, and the streams after the failing one are not
finalized.  Only when every per-stream step succeeds does the callback
return `true`, and then every active stream has been finalized. -/
theorem saveCallback_finalization (inp : SaveInput) :
    ((saveCallback inp).1 = true →
        (∀ c ∈ inp.rgbCamerasList, SaveEvent.rename c "rgb" ∈ (saveCallback inp).2)
          ∧ (∀ c ∈ inp.rgbdCamerasList,
              SaveEvent.rename c "rgb" ∈ (saveCallback inp).2
                ∧ SaveEvent.rename c "depth" ∈ (saveCallback inp).2))
      ∧ (∀ (l1 : List String) (c : String) (l2 : List String),
          inp.rgbCamerasList = l1 ++ c :: l2 →
          (processRgbCamera inp c).1 = false →
          (∀ d ∈ l1, (processRgbCamera inp d).1 = true) →
          (saveCallback inp).1 = false
            ∧ ∀ d ty, d ∉ l1 → d ≠ c →
                SaveEvent.rename d ty ∉ (saveCallback inp).2) := by
  constructor
  · intro hres
    by_cases hrgb : (processCameraList (processRgbCamera inp) inp.rgbCamerasList).1 = true
    · have heq : saveCallback inp
          = ((processCameraList (processRgbdCamera inp) inp.rgbdCamerasList).1,
             (processCameraList (processRgbCamera inp) inp.rgbCamerasList).2
               ++ (processCameraList (processRgbdCamera inp) inp.rgbdCamerasList).2) := by
        simp [saveCallback, hrgb]
      rw [heq] at hres ⊢
      constructor
      · intro c hc
        obtain ⟨h1, h2⟩ := processCameraList_true (processRgbCamera inp)
          inp.rgbCamerasList hrgb c hc
        exact List.mem_append_left _ (h2 _ (processRgbCamera_rename inp c h1))
      · intro c hc
        obtain ⟨h1, h2⟩ := processCameraList_true (processRgbdCamera inp)
          inp.rgbdCamerasList hres c hc
        obtain ⟨hr1, hr2⟩ := processRgbdCamera_rename inp c h1
        exact ⟨List.mem_append_right _ (h2 _ hr1), List.mem_append_right _ (h2 _ hr2)⟩
    · have hrgb' : (processCameraList (processRgbCamera inp) inp.rgbCamerasList).1
          = false := by simpa using hrgb
      have heq : saveCallback inp
          = (false, (processCameraList (processRgbCamera inp) inp.rgbCamerasList).2) := by
        simp [saveCallback, hrgb']
      rw [heq] at hres
      simp at hres
  · intro l1 c l2 hlist hc hall
    have hstop := processCameraList_stop (processRgbCamera inp) l1 c l2 hall hc
    have hrgb : processCameraList (processRgbCamera inp) inp.rgbCamerasList
        = (false, l1.flatMap (fun d => (processRgbCamera inp d).2)
            ++ (processRgbCamera inp c).2) := by
      rw [hlist, hstop]
    have heq : saveCallback inp
        = (false, l1.flatMap (fun d => (processRgbCamera inp d).2)
            ++ (processRgbCamera inp c).2) := by
      simp [saveCallback, hrgb]
    rw [heq]
    refine ⟨rfl, ?_⟩
    intro d ty hdl1 hdc hmem
    rcases List.mem_append.mp hmem with h1 | h2
    · rcases List.mem_flatMap.mp h1 with ⟨d2, hd2, he⟩
      have := processRgbCamera_camera inp d2 _ he
      rw [show eventCamera (SaveEvent.rename d ty) = d from rfl] at this
      exact hdl1 (this ▸ hd2)
    · have := processRgbCamera_camera inp c _ h2
      rw [show eventCamera (SaveEvent.rename d ty) = d from rfl] at this
      exact hdc this

/-- A save input with two rgb cameras: the writer of `"camA"` exposes no
rgb stream (its finalization fails), `"camB"` has a healthy video
writer. -/
def shortCircuitSaveInput : SaveInput :=
  { method := SaveCallbackSaveMethod.last_call
    rgbCamerasList := ["camA", "camB"]
    rgbdCamerasList := []
    videoWriters := fun c =>
      if c = "camA" then { rgb := none, depth := none }
      else { rgb := some { saveMode := SaveMode.Video }, depth := none }
    openVideoWriterOk := fun _ _ => true
    createFramesFolderOk := fun _ _ => true }

/-- A save input with one healthy rgb camera `"camB"`. -/
def allGoodSaveInput : SaveInput :=
  { method := SaveCallbackSaveMethod.last_call
    rgbCamerasList := ["camB"]
    rgbdCamerasList := []
    videoWriters := fun _ => { rgb := some { saveMode := SaveMode.Video }, depth := none }
    openVideoWriterOk := fun _ _ => true
    createFramesFolderOk := fun _ _ => true }

/-- C1 counterexample: on a rotation with active streams `"camA"` (whose
finalization fails) and `"camB"` (healthy), the callback stops at
`"camA"`: it returns `false` and `"camB"` is never finalized, so a failure
on one stream does prevent the finalization of the remaining streams. -/
theorem saveCallback_skips_remaining_stream :
    "camB" ∈ shortCircuitSaveInput.rgbCamerasList
      ∧ (shortCircuitSaveInput.videoWriters "camB").rgb.isSome = true
      ∧ (saveCallback shortCircuitSaveInput).1 = false
      ∧ SaveEvent.rename "camB" "rgb" ∉ (saveCallback shortCircuitSaveInput).2 := by
  decide

/-- Witness for `saveCallback_finalization`: with every stream healthy the
callback finalizes `"camB"`; with `"camA"` failing first, `"camB"` is not
finalized. -/
theorem saveCallback_finalization_witness :
    SaveEvent.rename "camB" "rgb" ∈ (saveCallback allGoodSaveInput).2
      ∧ (saveCallback shortCircuitSaveInput).1 = false
      ∧ SaveEvent.rename "camB" "rgb" ∉ (saveCallback shortCircuitSaveInput).2 := by
  have hgood := ((saveCallback_finalization allGoodSaveInput).1 (by decide)).1
    "camB" (by decide)
  have hstop := (saveCallback_finalization shortCircuitSaveInput).2 [] "camA" ["camB"]
    (by decide) (by decide) (by decide)
  exact ⟨hgood, hstop.1, hstop.2 "camB" "rgb" (by decide) (by decide)⟩
